import Mathlib

/-!
Verification development for the SVG-generation orchestration core of
`webllm-svg` (`src/components/svg-generator.tsx` and the `useWebLLM` hook).

Buffers and fragments are modelled as `List Char`.  The content extractor is
the JavaScript regex scan `buffer.match(/<svg[\s\S]*?<\/svg>/gi)`: leftmost,
non-overlapping, minimally greedy matches of a case-insensitive
`<svg ... </svg>` span.
-/

namespace WebllmSvg

/-- Does the buffer start with a case-insensitive `<svg` opening-tag prefix
(the head of the regex `/<svg[\s\S]*?<\/svg>/i`)? -/
def isOpen : List Char → Bool
  | c0 :: c1 :: c2 :: c3 :: _ =>
      c0 == '<' && (c1 == 's' || c1 == 'S') && (c2 == 'v' || c2 == 'V') &&
        (c3 == 'g' || c3 == 'G')
  | _ => false

/-- Does the buffer start with a case-insensitive `</svg>` closing tag
(the tail of the regex `/<svg[\s\S]*?<\/svg>/i`)? -/
def isClose : List Char → Bool
  | c0 :: c1 :: c2 :: c3 :: c4 :: c5 :: _ =>
      c0 == '<' && c1 == '/' && (c2 == 's' || c2 == 'S') && (c3 == 'v' || c3 == 'V') &&
        (c4 == 'g' || c4 == 'G') && c5 == '>'
  | _ => false

/-- Lazy (`*?`) completion of a match: split the buffer at the earliest
case-insensitive `</svg>` occurrence, returning the consumed part (up to and
including the closing tag) and the remainder. -/
def findClose : List Char → Option (List Char × List Char)
  | [] => none
  | c :: cs =>
      if isClose (c :: cs) then some ((c :: cs).take 6, (c :: cs).drop 6)
      else
        match findClose cs with
        | some (m, r) => some (c :: m, r)
        | none => none

/-- Leftmost match of `/<svg[\s\S]*?<\/svg>/i` in the buffer: the matched
span together with the rest of the buffer after it (the regex `lastIndex`
continuation point). -/
def firstMatch : List Char → Option (List Char × List Char)
  | [] => none
  | c :: cs =>
      if isOpen (c :: cs) then
        match findClose ((c :: cs).drop 4) with
        | some (m, r) => some ((c :: cs).take 4 ++ m, r)
        | none => firstMatch cs
      else firstMatch cs

/-- Fuel-indexed global scan collecting successive non-overlapping matches. -/
def extractFuel : Nat → List Char → List (List Char)
  | 0, _ => []
  | fuel + 1, s =>
      match firstMatch s with
      | none => []
      | some (m, r) => m :: extractFuel fuel r

/-- `buffer.match(/<svg[\s\S]*?<\/svg>/gi)` (with `null` rendered as the
empty list): all non-overlapping, minimally greedy, case-insensitive
`<svg ... </svg>` spans, in left-to-right order. -/
def extract (s : List Char) : List (List Char) :=
  extractFuel s.length s

lemma isClose_length {l : List Char} (h : isClose l = true) : 6 ≤ l.length := by
  rcases l with _ | ⟨a, _ | ⟨b, _ | ⟨c, _ | ⟨d, _ | ⟨e, _ | ⟨f, t⟩⟩⟩⟩⟩⟩ <;>
    first
      | (simp only [List.length_cons]; omega)
      | simp [isClose] at h

lemma findClose_sizes :
    ∀ {l m r : List Char}, findClose l = some (m, r) → m ++ r = l ∧ 6 ≤ m.length := by
  intro l
  induction l with
  | nil => intro m r h; simp [findClose] at h
  | cons c cs ih =>
      intro m r h
      rw [findClose] at h
      by_cases hc : isClose (c :: cs) = true
      · rw [if_pos hc] at h
        simp only [Option.some.injEq, Prod.mk.injEq] at h
        obtain ⟨hm, hr⟩ := h
        have h6 : 6 ≤ (c :: cs).length := isClose_length hc
        subst hm; subst hr
        constructor
        · exact List.take_append_drop 6 (c :: cs)
        · simp only [List.length_cons] at h6
          simp only [List.length_take, List.length_cons]
          omega
      · rw [if_neg hc] at h
        cases hfc : findClose cs with
        | none => rw [hfc] at h; simp at h
        | some p =>
            obtain ⟨m', r'⟩ := p
            rw [hfc] at h
            simp only [Option.some.injEq, Prod.mk.injEq] at h
            obtain ⟨hm, hr⟩ := h
            obtain ⟨ha, hb⟩ := ih hfc
            subst hm; subst hr
            constructor
            · simp [ha]
            · simp; omega

lemma findClose_rest_lt {l m r : List Char} (h : findClose l = some (m, r)) :
    r.length < l.length := by
  obtain ⟨ha, hb⟩ := findClose_sizes h
  have := congrArg List.length ha
  simp at this
  omega

lemma firstMatch_rest_lt :
    ∀ {s m r : List Char}, firstMatch s = some (m, r) → r.length < s.length := by
  intro s
  induction s with
  | nil => intro m r h; simp [firstMatch] at h
  | cons c cs ih =>
      intro m r h
      rw [firstMatch] at h
      by_cases ho : isOpen (c :: cs) = true
      · rw [if_pos ho] at h
        cases hfc : findClose ((c :: cs).drop 4) with
        | none =>
            rw [hfc] at h
            have := ih h
            simp only [List.length_cons]
            omega
        | some p =>
            obtain ⟨m', r'⟩ := p
            rw [hfc] at h
            simp only [Option.some.injEq, Prod.mk.injEq] at h
            obtain ⟨hm, hr⟩ := h
            subst hr
            have hlt := findClose_rest_lt hfc
            rw [List.length_drop] at hlt
            simp only [List.length_cons] at hlt ⊢
            omega
      · rw [if_neg ho] at h
        have := ih h
        simp only [List.length_cons]
        omega

lemma extractFuel_nil : ∀ fuel, extractFuel fuel [] = [] := by
  intro fuel
  cases fuel with
  | zero => rfl
  | succ f => rw [extractFuel]; rfl

lemma extractFuel_congr :
    ∀ fuel₁ fuel₂ s, s.length ≤ fuel₁ → s.length ≤ fuel₂ →
      extractFuel fuel₁ s = extractFuel fuel₂ s := by
  intro fuel₁
  induction fuel₁ with
  | zero =>
      intro fuel₂ s h1 h2
      have : s = [] := List.length_eq_zero.mp (Nat.le_zero.mp h1)
      subst this
      rw [extractFuel_nil, extractFuel_nil]
  | succ f ih =>
      intro fuel₂ s h1 h2
      cases fuel₂ with
      | zero =>
          have : s = [] := List.length_eq_zero.mp (Nat.le_zero.mp h2)
          subst this
          rw [extractFuel_nil, extractFuel_nil]
      | succ f₂ =>
          rw [extractFuel, extractFuel]
          cases hfm : firstMatch s with
          | none => rfl
          | some p =>
              obtain ⟨m, r⟩ := p
              have hlt := firstMatch_rest_lt hfm
              have he : extractFuel f r = extractFuel f₂ r := ih f₂ r (by omega) (by omega)
              show m :: extractFuel f r = m :: extractFuel f₂ r
              rw [he]

lemma extract_eq_none {s : List Char} (h : firstMatch s = none) : extract s = [] := by
  cases s with
  | nil => rfl
  | cons c cs =>
      rw [extract]
      simp only [List.length_cons]
      rw [extractFuel, h]

lemma extract_eq_some {s m r : List Char} (h : firstMatch s = some (m, r)) :
    extract s = m :: extract r := by
  cases s with
  | nil => simp [firstMatch] at h
  | cons c cs =>
      have hlt := firstMatch_rest_lt h
      simp only [List.length_cons] at hlt
      rw [extract]
      simp only [List.length_cons]
      rw [extractFuel, h]
      show m :: extractFuel cs.length r = m :: extract r
      rw [extractFuel_congr cs.length r.length r (by omega) (by omega)]
      rfl

/-- No suffix of the list starts a case-insensitive `<svg` opening tag. -/
def noOpenIn : List Char → Bool
  | [] => true
  | c :: cs => !isOpen (c :: cs) && noOpenIn cs

/-- No suffix of the list starts a case-insensitive `</svg>` closing tag. -/
def noCloseIn : List Char → Bool
  | [] => true
  | c :: cs => !isClose (c :: cs) && noCloseIn cs

/-- Some suffix of the list starts a case-insensitive `</svg>` closing tag. -/
def hasClose : List Char → Bool
  | [] => false
  | c :: cs => isClose (c :: cs) || hasClose cs

/-- The buffer contains a well-formed block of the extractor's grammar: a
case-insensitive `<svg` occurrence with a case-insensitive `</svg>`
occurrence starting at least 4 characters later. -/
def hasOpenClose : List Char → Bool
  | [] => false
  | c :: cs => (isOpen (c :: cs) && hasClose ((c :: cs).drop 4)) || hasOpenClose cs

lemma isOpen_append (t z : List Char) (ht : 4 ≤ t.length) : isOpen (t ++ z) = isOpen t := by
  rcases t with _ | ⟨a, _ | ⟨b, _ | ⟨c, _ | ⟨d, t⟩⟩⟩⟩ <;>
    first
      | rfl
      | (simp only [List.length_cons, List.length_nil] at ht; omega)

lemma isClose_append (t z : List Char) (ht : 6 ≤ t.length) : isClose (t ++ z) = isClose t := by
  rcases t with _ | ⟨a, _ | ⟨b, _ | ⟨c, _ | ⟨d, _ | ⟨e, _ | ⟨f, t⟩⟩⟩⟩⟩⟩ <;>
    first
      | rfl
      | (simp only [List.length_cons, List.length_nil] at ht; omega)

lemma isOpen_boundary (t z : List Char) (h1 : t ≠ []) (h2 : t.length ≤ 3) :
    isOpen (t ++ '<' :: z) = false := by
  rcases t with _ | ⟨a, _ | ⟨b, _ | ⟨c, t⟩⟩⟩
  · exact absurd rfl h1
  · rcases z with _ | ⟨z0, _ | ⟨z1, z⟩⟩ <;> simp [isOpen]
  · rcases z with _ | ⟨z0, z⟩ <;> simp [isOpen]
  · cases t with
    | nil => simp [isOpen]
    | cons d t => simp only [List.length_cons] at h2; omega

lemma isClose_boundary (t z : List Char) (h1 : t ≠ []) (h2 : t.length ≤ 5) :
    isClose (t ++ '<' :: z) = false := by
  rcases t with _ | ⟨a, _ | ⟨b, _ | ⟨c, _ | ⟨d, _ | ⟨e, t⟩⟩⟩⟩⟩
  · exact absurd rfl h1
  · rcases z with _ | ⟨z0, _ | ⟨z1, _ | ⟨z2, _ | ⟨z3, z⟩⟩⟩⟩ <;> simp [isClose]
  · rcases z with _ | ⟨z0, _ | ⟨z1, _ | ⟨z2, z⟩⟩⟩ <;> simp [isClose]
  · rcases z with _ | ⟨z0, _ | ⟨z1, z⟩⟩ <;> simp [isClose]
  · rcases z with _ | ⟨z0, z⟩ <;> simp [isClose]
  · cases t with
    | nil => simp [isClose]
    | cons f t => simp only [List.length_cons] at h2; omega

lemma isOpen_head {o : List Char} (h : isOpen o = true) : ∃ t, o = '<' :: t := by
  rcases o with _ | ⟨a, _ | ⟨b, _ | ⟨c, _ | ⟨d, t⟩⟩⟩⟩ <;> simp [isOpen] at h
  obtain ⟨⟨⟨ha, _⟩, _⟩, _⟩ := h
  exact ⟨_, by rw [ha]⟩

lemma isClose_head {e : List Char} (h : isClose e = true) : ∃ t, e = '<' :: t := by
  rcases e with _ | ⟨a, _ | ⟨b, _ | ⟨c, _ | ⟨d, _ | ⟨f, _ | ⟨g, t⟩⟩⟩⟩⟩⟩ <;> simp [isClose] at h
  obtain ⟨⟨⟨⟨⟨ha, _⟩, _⟩, _⟩, _⟩, _⟩ := h
  exact ⟨_, by rw [ha]⟩

lemma findClose_block :
    ∀ (b e z : List Char), noCloseIn b = true → isClose e = true → e.length = 6 →
      findClose (b ++ e ++ z) = some (b ++ e, z) := by
  intro b
  induction b with
  | nil =>
      intro e z _ he hel
      simp only [List.nil_append]
      obtain ⟨c, cs, rfl⟩ : ∃ c cs, e = c :: cs := by
        cases e with
        | nil => simp at hel
        | cons c cs => exact ⟨c, cs, rfl⟩
      rw [show ((c :: cs) ++ z) = c :: (cs ++ z) from rfl, findClose]
      have hcl : isClose (c :: (cs ++ z)) = true := by
        rw [show (c :: (cs ++ z)) = (c :: cs) ++ z from rfl]
        rw [isClose_append _ _ (by rw [hel])]
        exact he
      rw [if_pos hcl]
      rw [show (c :: (cs ++ z)) = (c :: cs) ++ z from rfl]
      rw [List.take_left' hel, List.drop_left' hel]
  | cons c b ih =>
      intro e z hb he hel
      rw [noCloseIn, Bool.and_eq_true, Bool.not_eq_true'] at hb
      obtain ⟨hb1, hb2⟩ := hb
      have hne : isClose (c :: b ++ e ++ z) = false := by
        by_cases hlen : 6 ≤ (c :: b).length
        · rw [show ((c :: b) ++ e ++ z) = (c :: b) ++ (e ++ z) from by simp]
          rw [isClose_append _ _ hlen]
          exact hb1
        · obtain ⟨e', rfl⟩ := isClose_head he
          rw [show ((c :: b) ++ ('<' :: e') ++ z) = (c :: b) ++ ('<' :: (e' ++ z)) from by simp]
          exact isClose_boundary (c :: b) (e' ++ z) (by simp) (by omega)
      rw [show ((c :: b) ++ e ++ z) = c :: (b ++ e ++ z) from by simp, findClose]
      rw [show (c :: (b ++ e ++ z)) = (c :: b) ++ e ++ z from by simp, if_neg (by rw [hne]; simp)]
      rw [ih e z hb2 he hel]
      rfl

lemma firstMatch_none : ∀ (j : List Char), noOpenIn j = true → firstMatch j = none := by
  intro j
  induction j with
  | nil => intro _; rfl
  | cons c cs ih =>
      intro hj
      rw [noOpenIn, Bool.and_eq_true, Bool.not_eq_true'] at hj
      rw [firstMatch, if_neg (by rw [hj.1]; simp)]
      exact ih hj.2

lemma firstMatch_skip :
    ∀ (j z : List Char), noOpenIn j = true →
      firstMatch (j ++ '<' :: z) = firstMatch ('<' :: z) := by
  intro j
  induction j with
  | nil => intro z _; rfl
  | cons c cs ih =>
      intro z hj
      rw [noOpenIn, Bool.and_eq_true, Bool.not_eq_true'] at hj
      have hno : isOpen (c :: cs ++ '<' :: z) = false := by
        by_cases hlen : 4 ≤ (c :: cs).length
        · rw [show (c :: cs ++ '<' :: z) = (c :: cs) ++ ('<' :: z) from rfl]
          rw [isOpen_append _ _ hlen]
          exact hj.1
        · exact isOpen_boundary (c :: cs) z (by simp) (by omega)
      rw [show ((c :: cs) ++ '<' :: z) = c :: (cs ++ '<' :: z) from rfl, firstMatch]
      rw [if_neg (by rw [show (c :: (cs ++ '<' :: z)) = (c :: cs) ++ '<' :: z from rfl, hno]; simp)]
      exact ih z hj.2

lemma firstMatch_block :
    ∀ (o b e z : List Char),
      isOpen o = true → o.length = 4 →
      noCloseIn b = true →
      isClose e = true → e.length = 6 →
      firstMatch (o ++ b ++ e ++ z) = some (o ++ b ++ e, z) := by
  intro o b e z ho hol hb he hel
  obtain ⟨c, cs, rfl⟩ : ∃ c cs, o = c :: cs := by
    cases o with
    | nil => simp at hol
    | cons c cs => exact ⟨c, cs, rfl⟩
  rw [show ((c :: cs) ++ b ++ e ++ z) = c :: (cs ++ b ++ e ++ z) from by simp, firstMatch]
  have hop : isOpen (c :: (cs ++ b ++ e ++ z)) = true := by
    rw [show (c :: (cs ++ b ++ e ++ z)) = (c :: cs) ++ (b ++ e ++ z) from by simp]
    rw [isOpen_append _ _ (by rw [hol])]
    exact ho
  rw [if_pos hop]
  have hdrop : (c :: (cs ++ b ++ e ++ z)).drop 4 = b ++ e ++ z := by
    rw [show (c :: (cs ++ b ++ e ++ z)) = (c :: cs) ++ (b ++ e ++ z) from by simp]
    exact List.drop_left' hol
  have htake : (c :: (cs ++ b ++ e ++ z)).take 4 = c :: cs := by
    rw [show (c :: (cs ++ b ++ e ++ z)) = (c :: cs) ++ (b ++ e ++ z) from by simp]
    exact List.take_left' hol
  rw [hdrop, findClose_block b e z hb he hel, htake]
  simp

/-- One well-formed block of model output, together with the tag-free text
(`junk`) that precedes it: `junk ++ openT ++ body ++ closeT`. -/
structure BlockSpec where
  junk : List Char
  openT : List Char
  body : List Char
  closeT : List Char
deriving DecidableEq

/-- The regex span of a block: opening tag, body, closing tag. -/
def frag (q : BlockSpec) : List Char := q.openT ++ q.body ++ q.closeT

/-- The block is well formed for the extractor's grammar and interferes with
nothing: a 4-character case-insensitive `<svg` opening tag, a 6-character
case-insensitive `</svg>` closing tag, and no stray opening or closing tag
occurrence inside the preceding junk or the body. -/
def wellFormedBlock (q : BlockSpec) : Prop :=
  isOpen q.openT = true ∧ q.openT.length = 4 ∧
  isClose q.closeT = true ∧ q.closeT.length = 6 ∧
  noOpenIn q.junk = true ∧ noOpenIn q.body = true ∧ noCloseIn q.body = true

instance (q : BlockSpec) : Decidable (wellFormedBlock q) := by
  unfold wellFormedBlock; infer_instance

/-- A buffer made of `n` well-formed blocks, each preceded by its junk, with
trailing junk at the end. -/
def assembleBlocks : List BlockSpec → List Char → List Char
  | [], jEnd => jEnd
  | q :: qs, jEnd => q.junk ++ (frag q ++ assembleBlocks qs jEnd)

lemma extract_assembled :
    ∀ (qs : List BlockSpec) (jEnd : List Char),
      (∀ q ∈ qs, wellFormedBlock q) → noOpenIn jEnd = true →
      extract (assembleBlocks qs jEnd) = qs.map frag := by
  intro qs
  induction qs with
  | nil =>
      intro jEnd _ hE
      exact extract_eq_none (firstMatch_none jEnd hE)
  | cons q qs ih =>
      intro jEnd hq hE
      obtain ⟨ho, hol, he, hel, hjk, hbo, hbc⟩ := hq q (by simp)
      obtain ⟨o', hoeq⟩ := isOpen_head ho
      have hfm : firstMatch (assembleBlocks (q :: qs) jEnd) =
          some (frag q, assembleBlocks qs jEnd) := by
        rw [assembleBlocks]
        rw [show (frag q ++ assembleBlocks qs jEnd)
              = '<' :: (o' ++ (q.body ++ q.closeT ++ assembleBlocks qs jEnd)) from by
          rw [frag, hoeq]; simp]
        rw [firstMatch_skip q.junk _ hjk]
        rw [show ('<' :: (o' ++ (q.body ++ q.closeT ++ assembleBlocks qs jEnd)))
              = q.openT ++ q.body ++ q.closeT ++ assembleBlocks qs jEnd from by
          rw [hoeq]; simp]
        rw [firstMatch_block q.openT q.body q.closeT (assembleBlocks qs jEnd) ho hol hbc he hel]
        rw [frag]
      rw [extract_eq_some hfm, ih jEnd (fun p hp => hq p (by simp [hp])) hE]
      rfl

lemma hasClose_false_findClose :
    ∀ (l : List Char), hasClose l = false → findClose l = none := by
  intro l
  induction l with
  | nil => intro _; rfl
  | cons c cs ih =>
      intro h
      rw [hasClose, Bool.or_eq_false_iff] at h
      rw [findClose, if_neg (by rw [h.1]; simp), ih h.2]

lemma hasOpenClose_false_firstMatch :
    ∀ (b : List Char), hasOpenClose b = false → firstMatch b = none := by
  intro b
  induction b with
  | nil => intro _; rfl
  | cons c cs ih =>
      intro h
      rw [hasOpenClose, Bool.or_eq_false_iff, Bool.and_eq_false_iff] at h
      rw [firstMatch]
      by_cases ho : isOpen (c :: cs) = true
      · rcases h.1 with h1 | h1
        · rw [ho] at h1; simp at h1
        · rw [if_pos ho, hasClose_false_findClose _ h1]
          exact ih h.2
      · rw [if_neg ho]
        exact ih h.2

lemma extract_no_block (b : List Char) (h : hasOpenClose b = false) : extract b = [] :=
  extract_eq_none (hasOpenClose_false_firstMatch b h)

/-- Claim C4: for every buffer containing zero well-formed blocks, extraction
returns an empty candidate list; and for every buffer containing n
well-formed, non-overlapping opening-tag...closing-tag blocks with no
malformed interference, extraction returns exactly those n fragments in
left-to-right order of first occurrence, matching minimally-greedily with a
case-insensitive tag name. -/
theorem extract_zero_and_n_blocks :
    (∀ b : List Char, hasOpenClose b = false → extract b = [])
  ∧ (∀ (qs : List BlockSpec) (jEnd : List Char),
      (∀ q ∈ qs, wellFormedBlock q) → noOpenIn jEnd = true →
      extract (assembleBlocks qs jEnd) = qs.map frag) :=
  ⟨extract_no_block, extract_assembled⟩

/-- Witness for C4 at concrete inputs: a tag-free buffer extracts to nothing,
and a two-block buffer (second block with mixed-case tags) extracts to
exactly its two fragments in order. -/
theorem extract_zero_and_n_blocks_witness :
    hasOpenClose ("no graphics here".toList) = false
  ∧ extract ("no graphics here".toList) = []
  ∧ extract (assembleBlocks
        [⟨"Here: ".toList, "<svg".toList,
            " viewBox=\"0 0 64 64\"><circle r=\"10\"/>".toList, "</svg>".toList⟩,
         ⟨" and ".toList, "<SVG".toList, " id=\"x\">".toList, "</SvG>".toList⟩]
        " done".toList)
      = [⟨"Here: ".toList, "<svg".toList,
            " viewBox=\"0 0 64 64\"><circle r=\"10\"/>".toList, "</svg>".toList⟩,
         ⟨" and ".toList, "<SVG".toList, " id=\"x\">".toList, "</SvG>".toList⟩].map frag :=
  ⟨by decide,
   extract_zero_and_n_blocks.1 ("no graphics here".toList) (by decide),
   extract_zero_and_n_blocks.2
     [⟨"Here: ".toList, "<svg".toList,
         " viewBox=\"0 0 64 64\"><circle r=\"10\"/>".toList, "</svg>".toList⟩,
      ⟨" and ".toList, "<SVG".toList, " id=\"x\">".toList, "</SvG>".toList⟩]
     (" done".toList) (by decide) (by decide)⟩

/-- The only mutable state a JS regex carries between uses: its `lastIndex`.
The source constructs a fresh regex literal at each call site, and
`String.prototype.match` with a `/g` regex in any case rescans the whole
string from index 0 and leaves `lastIndex` reset. -/
structure RegexState where
  lastIndex : Nat
deriving DecidableEq

/-- One call of `buffer.match(/<svg[\s\S]*?<\/svg>/gi)` as performed by the
source (at the live-preview and final-extraction call sites): the result is
the full scan of the buffer, and the state after the call is reset. -/
def matchCall (_st : RegexState) (b : List Char) : RegexState × List (List Char) :=
  (⟨0⟩, extract b)

/-- Run a history of prior extraction calls, threading the regex state. -/
def runCalls (st : RegexState) (hist : List (List Char)) : RegexState :=
  hist.foldl (fun s b => (matchCall s b).1) st

/-- Claim C5: extraction is a pure function of the buffer content — the
result of a `matchCall` on a buffer is independent of the starting regex
state and of any history of prior calls, and calling twice in a row on the
same buffer yields identical results. -/
theorem extract_pure :
    (∀ (st₁ st₂ : RegexState) (hist₁ hist₂ : List (List Char)) (b : List Char),
        (matchCall (runCalls st₁ hist₁) b).2 = (matchCall (runCalls st₂ hist₂) b).2)
  ∧ (∀ (st : RegexState) (b : List Char),
        (matchCall (matchCall st b).1 b).2 = (matchCall st b).2)
  ∧ (∀ b : List Char, extract b = extract b) :=
  ⟨fun _ _ _ _ _ => rfl, fun _ _ => rfl, fun _ => rfl⟩

/-- A JS regex `["']` quote character. -/
def isQuote (c : Char) : Bool := c == '"' || c == Char.ofNat 39

/-- Case-insensitive match of a lowercase pattern against a prefix of the
text (the `i` flag of `/viewBox=["']([^"']+)["']/i`). -/
def matchesCI : List Char → List Char → Bool
  | [], _ => true
  | _ :: _, [] => false
  | p :: ps, c :: cs => (c.toLower == p) && matchesCI ps cs

/-- The literal part `viewBox=` of the viewBox regex, lowercased. -/
def viewBoxKey : List Char := ['v', 'i', 'e', 'w', 'b', 'o', 'x', '=']

/-- Try `/viewBox=["']([^"']+)["']/i` anchored at the head of the list,
returning the captured group. -/
def tryViewBoxAt (l : List Char) : Option (List Char) :=
  if matchesCI viewBoxKey l then
    match l.drop 8 with
    | q :: rest =>
        if isQuote q then
          let content := rest.takeWhile (fun c => !isQuote c)
          if content.isEmpty then none
          else
            match rest.drop content.length with
            | q2 :: _ => if isQuote q2 then some content else none
            | [] => none
        else none
    | [] => none
  else none

/-- `svg.match(/viewBox=["']([^"']+)["']/i)`: the capture of the first
position, scanning left to right, where the pattern matches. -/
def viewBoxContent : List Char → Option (List Char)
  | [] => none
  | c :: cs =>
      match tryViewBoxAt (c :: cs) with
      | some content => some content
      | none => viewBoxContent cs

/-- JS `\s` for the characters that can occur inside a viewBox attribute. -/
def isWsChar (c : Char) : Bool := c == ' ' || c == '\t' || c == '\n' || c == '\r'

/-- JS `str.split(/\s+/)`: runs of whitespace separate components; a leading
or trailing run produces an empty component, interior runs do not. -/
def splitWs : List Char → List (List Char)
  | [] => [[]]
  | c :: cs =>
      let r := splitWs cs
      if isWsChar c then
        match cs with
        | c2 :: _ => if isWsChar c2 then r else [] :: r
        | [] => [] :: r
      else
        match r with
        | t :: ts => (c :: t) :: ts
        | [] => [[c]]

/-- `Number.parseFloat` on a whitespace-free token, in exact form: an
optional sign, then decimal digits with an optional fractional part
(exponents, `Infinity` and surrounding junk beyond the numeric prefix are
outside the inputs this attribute grammar produces).  `none` is `NaN`.
`num` is the value scaled by `10 ^ scale`. -/
structure ParsedNum where
  num : Int
  scale : Nat
deriving DecidableEq

/-- Digit run to a natural number. -/
def digitsToNat (l : List Char) : Nat :=
  l.foldl (fun acc c => acc * 10 + (c.toNat - 48)) 0

/-- Parse a numeric token; see `ParsedNum`. -/
def parseFloatP (l : List Char) : Option ParsedNum :=
  let sgn : Int :=
    match l with
    | c :: _ => if c == '-' then -1 else 1
    | [] => 1
  let l1 : List Char :=
    match l with
    | c :: cs => if c == '-' || c == '+' then cs else l
    | [] => []
  let intPart := l1.takeWhile Char.isDigit
  let l2 := l1.drop intPart.length
  let fracPart :=
    match l2 with
    | c :: cs => if c == '.' then cs.takeWhile Char.isDigit else []
    | [] => []
  if intPart.isEmpty && fracPart.isEmpty then none
  else
    some ⟨sgn * ((digitsToNat intPart : Int) * 10 ^ fracPart.length + (digitsToNat fracPart : Int)),
          fracPart.length⟩

/-- Does the parsed viewBox dimension differ from the requested size
(`svgWidth !== size`, with `NaN` unequal to everything)? -/
def dimMismatch (size : Nat) (p : Option ParsedNum) : Bool :=
  match p with
  | none => true
  | some w => !(w.num == (size : Int) * 10 ^ w.scale)

/-- The size check of the validation loop: parse the viewBox attribute if
present, split it on whitespace, read components 2 and 3, and report whether
a size-mismatch warning would be logged.  No viewBox attribute means no
comparison and no warning. -/
def sizeWarn (size : Nat) (svg : List Char) : Bool :=
  match viewBoxContent svg with
  | none => false
  | some content =>
      let vals := splitWs content
      dimMismatch size (parseFloatP (vals.getD 2 [])) ||
        dimMismatch size (parseFloatP (vals.getD 3 []))

/-- Outcome of the per-candidate validation loop of `handleGenerate`
(lines 561-596): the surviving valid blocks in order, the number of
size-mismatch warnings logged, and the number of structurally invalid
blocks dropped. -/
structure ValidationResult where
  validSVGs : List (List Char)
  warnCount : Nat
  droppedCount : Nat
deriving DecidableEq

/-- The validation loop: for each candidate, drop it if it fails the
structural check (`isSvg`, abstracted as `valid`); otherwise log a warning
when a declared viewBox size mismatches the request, and push the block
regardless. -/
def validateMatches (valid : List Char → Bool) (size : Nat)
    (ms : List (List Char)) : ValidationResult :=
  ms.foldl
    (fun acc svg =>
      if !(valid svg) then
        { acc with droppedCount := acc.droppedCount + 1 }
      else
        { acc with
            validSVGs := acc.validSVGs ++ [svg],
            warnCount := acc.warnCount + (if sizeWarn size svg then 1 else 0) })
    ⟨[], 0, 0⟩

/-- The outcome the environment (WebLLM adapter plus user actions during the
stream) hands one attempt of `handleGenerate`: the streaming call resolved
with a full response text, or it rejected with an abort-style error (the
`shouldStopRef` value read inside the catch is recorded), or it rejected
with any other transport error. -/
inductive AttemptInput where
  | completed (resp : List Char)
  | aborted (stopFlag : Bool)
  | failed
deriving DecidableEq

/-- The environment of one generation call: what `shouldStopRef` reads at
the top-of-loop check when the attempt counter has the given value, and the
outcome of each 1-based attempt. -/
structure GenEnv where
  stopAtEntry : Nat → Bool
  input : Nat → AttemptInput

/-- How a `handleGenerate` call can end. `stopped` is the silent return of
the user-stop paths; `succeeded` carries the full valid-block list and the
selected index; the three fatal cases are the toasts for no structural
candidates, no valid block, and a transport error on the last attempt;
`fatalMaxReached` is the fall-through toast after the `while` guard fails. -/
inductive FinalResult where
  | stopped
  | succeeded (svgs : List (List Char)) (selectedIdx : Nat)
  | fatalNoMatch
  | fatalNoValid
  | fatalTransport
  | fatalMaxReached
deriving DecidableEq

/-- Observable record of one started attempt: its 1-based ordinal, the
accumulated-output buffer at its start, and the identity of the
`AbortController` (cancellation token) it streams under. -/
structure AttemptRec where
  ordinal : Nat
  bufAtStart : List Char
  tokenId : Nat
deriving DecidableEq

/-- Result of a whole `handleGenerate` call: the terminal result, the trace
of attempts that issued a streaming call (in order), and whether
`setCachedModels(prev => prev.add(selectedModel))` ran. -/
structure GenOutcome where
  result : FinalResult
  trace : List AttemptRec
  cacheMarked : Bool
deriving DecidableEq

/-- `const maxRetries = 10` (line 477 of the source). -/
def maxRetries : Nat := 10

/-- The retry loop of `handleGenerate` (lines 481-651).  `attempt` is the
loop counter before the increment at the top of an iteration, `buf` the current
accumulated output, `tok` the current `AbortController` identity, and `nxt`
the next fresh token identity (a skip manufactures a fresh controller).
The fuel argument only bounds the recursion: with `maxRetries - attempt ≤
fuel` it is never exhausted before the `while` guard fails, and both ends
yield the guard-failure outcome. -/
def handleGenerateLoop (env : GenEnv) (valid : List Char → Bool) (size : Nat) :
    Nat → Nat → List Char → Nat → Nat → GenOutcome
  | 0, _, _, _, _ => ⟨.fatalMaxReached, [], false⟩
  | fuel + 1, attempt, buf, tok, nxt =>
      if attempt < maxRetries then
        if env.stopAtEntry attempt then ⟨.stopped, [], false⟩
        else
          let a := attempt + 1
          let buf1 := if 1 < a then [] else buf
          match env.input a with
          | .completed resp =>
              let ms := extract resp
              if ms.isEmpty then
                if a < maxRetries then
                  let o := handleGenerateLoop env valid size fuel a resp tok nxt
                  ⟨o.result, ⟨a, buf1, tok⟩ :: o.trace, o.cacheMarked⟩
                else ⟨.fatalNoMatch, [⟨a, buf1, tok⟩], false⟩
              else
                let vs := (validateMatches valid size ms).validSVGs
                if vs.isEmpty then
                  if a < maxRetries then
                    let o := handleGenerateLoop env valid size fuel a resp tok nxt
                    ⟨o.result, ⟨a, buf1, tok⟩ :: o.trace, o.cacheMarked⟩
                  else ⟨.fatalNoValid, [⟨a, buf1, tok⟩], false⟩
                else ⟨.succeeded vs (vs.length - 1), [⟨a, buf1, tok⟩], true⟩
          | .aborted stopFlag =>
              if stopFlag then ⟨.stopped, [⟨a, buf1, tok⟩], false⟩
              else
                let o := handleGenerateLoop env valid size fuel a buf1 nxt (nxt + 1)
                ⟨o.result, ⟨a, buf1, tok⟩ :: o.trace, o.cacheMarked⟩
          | .failed =>
              if maxRetries ≤ a then ⟨.fatalTransport, [⟨a, buf1, tok⟩], false⟩
              else
                let o := handleGenerateLoop env valid size fuel a buf1 tok nxt
                ⟨o.result, ⟨a, buf1, tok⟩ :: o.trace, o.cacheMarked⟩
      else ⟨.fatalMaxReached, [], false⟩

/-- A whole `handleGenerate` call: counter 0, empty accumulated output,
initial controller 0, next fresh token 1. -/
def handleGenerate (env : GenEnv) (valid : List Char → Bool) (size : Nat) : GenOutcome :=
  handleGenerateLoop env valid size maxRetries 0 [] 0 1

/-- The component state touched by `handleStop` / `handleRetry`. -/
structure StopState where
  abortController : Option Nat
  shouldStop : Bool
  interruptCalled : Bool
  startTime : Option Nat
deriving DecidableEq

/-- `handleStop` (lines 653-663): when a controller is live, set the stop
flag, invoke the adapter interrupt, null the controller and the timer. -/
def handleStop (st : StopState) : StopState :=
  match st.abortController with
  | some _ =>
      { abortController := none, shouldStop := true, interruptCalled := true,
        startTime := none }
  | none => st

/-- `handleRetry` (lines 665-672): when a controller is live, invoke the
adapter interrupt and nothing else — the stop flag stays down and the
controller is kept, so the resulting abort is treated as a skip. -/
def handleRetry (st : StopState) : StopState :=
  match st.abortController with
  | some _ => { st with interruptCalled := true }
  | none => st

lemma validateMatches_go (valid : List Char → Bool) (size : Nat) :
    ∀ (ms : List (List Char)) (acc : ValidationResult),
      (ms.foldl
        (fun acc svg =>
          if !(valid svg) then
            { acc with droppedCount := acc.droppedCount + 1 }
          else
            { acc with
                validSVGs := acc.validSVGs ++ [svg],
                warnCount := acc.warnCount + (if sizeWarn size svg then 1 else 0) })
        acc).validSVGs = acc.validSVGs ++ ms.filter valid := by
  intro ms
  induction ms with
  | nil => intro acc; simp
  | cons svg ms ih =>
      intro acc
      rw [List.foldl_cons, List.filter_cons]
      cases hv : valid svg with
      | false =>
          rw [ih]
          simp
      | true =>
          rw [ih]
          simp

lemma validateMatches_validSVGs (valid : List Char → Bool) (size : Nat)
    (ms : List (List Char)) :
    (validateMatches valid size ms).validSVGs = ms.filter valid := by
  rw [validateMatches, validateMatches_go]
  rfl

lemma loop_trace_bound (env : GenEnv) (valid : List Char → Bool) (size : Nat) :
    ∀ fuel attempt buf tok nxt,
      (handleGenerateLoop env valid size fuel attempt buf tok nxt).trace.length
        ≤ maxRetries - attempt := by
  intro fuel
  induction fuel with
  | zero => intro attempt buf tok nxt; simp [handleGenerateLoop]
  | succ fuel ih =>
      intro attempt buf tok nxt
      rw [handleGenerateLoop]
      split
      · split
        · simp
        · dsimp only
          split
          · rename_i resp heq
            split
            · split
              · have := ih (attempt + 1) resp tok nxt
                simp only [List.length_cons]
                omega
              · simp only [List.length_cons, List.length_nil]
                omega
            · split
              · split
                · have := ih (attempt + 1) resp tok nxt
                  simp only [List.length_cons]
                  omega
                · simp only [List.length_cons, List.length_nil]
                  omega
              · simp only [List.length_cons, List.length_nil]
                omega
          · split
            · simp only [List.length_cons, List.length_nil]
              omega
            · have := ih (attempt + 1) (if 1 < attempt + 1 then [] else buf) nxt (nxt + 1)
              simp only [List.length_cons]
              omega
          · split
            · simp only [List.length_cons, List.length_nil]
              omega
            · have := ih (attempt + 1) (if 1 < attempt + 1 then [] else buf) tok nxt
              simp only [List.length_cons]
              omega
      · simp

lemma loop_stop_entry (env : GenEnv) (valid : List Char → Bool) (size : Nat)
    (fuel attempt : Nat) (buf : List Char) (tok nxt : Nat)
    (h1 : attempt < maxRetries) (h2 : env.stopAtEntry attempt = true) :
    handleGenerateLoop env valid size (fuel + 1) attempt buf tok nxt
      = ⟨.stopped, [], false⟩ := by
  rw [handleGenerateLoop, if_pos h1, h2]
  simp

lemma loop_abort_stop (env : GenEnv) (valid : List Char → Bool) (size : Nat)
    (fuel attempt : Nat) (buf : List Char) (tok nxt : Nat)
    (h1 : attempt < maxRetries) (h2 : env.stopAtEntry attempt = false)
    (h3 : env.input (attempt + 1) = .aborted true) :
    handleGenerateLoop env valid size (fuel + 1) attempt buf tok nxt
      = ⟨.stopped, [⟨attempt + 1, if 1 < attempt + 1 then [] else buf, tok⟩], false⟩ := by
  rw [handleGenerateLoop, if_pos h1, h2]
  simp only [Bool.false_eq_true, if_false]
  rw [h3]
  rfl

lemma loop_skip_step (env : GenEnv) (valid : List Char → Bool) (size : Nat)
    (fuel attempt : Nat) (buf : List Char) (tok nxt : Nat)
    (h1 : attempt < maxRetries) (h2 : env.stopAtEntry attempt = false)
    (h3 : env.input (attempt + 1) = .aborted false) :
    handleGenerateLoop env valid size (fuel + 1) attempt buf tok nxt
      = ⟨(handleGenerateLoop env valid size fuel (attempt + 1)
            (if 1 < attempt + 1 then [] else buf) nxt (nxt + 1)).result,
         ⟨attempt + 1, if 1 < attempt + 1 then [] else buf, tok⟩ ::
           (handleGenerateLoop env valid size fuel (attempt + 1)
             (if 1 < attempt + 1 then [] else buf) nxt (nxt + 1)).trace,
         (handleGenerateLoop env valid size fuel (attempt + 1)
           (if 1 < attempt + 1 then [] else buf) nxt (nxt + 1)).cacheMarked⟩ := by
  rw [handleGenerateLoop, if_pos h1, h2]
  simp only [Bool.false_eq_true, if_false]
  rw [h3]
  rfl

lemma loop_trans_step (env : GenEnv) (valid : List Char → Bool) (size : Nat)
    (fuel attempt : Nat) (buf : List Char) (tok nxt : Nat)
    (h1 : attempt < maxRetries) (h2 : env.stopAtEntry attempt = false)
    (h3 : env.input (attempt + 1) = .failed) (h4 : attempt + 1 < maxRetries) :
    handleGenerateLoop env valid size (fuel + 1) attempt buf tok nxt
      = ⟨(handleGenerateLoop env valid size fuel (attempt + 1)
            (if 1 < attempt + 1 then [] else buf) tok nxt).result,
         ⟨attempt + 1, if 1 < attempt + 1 then [] else buf, tok⟩ ::
           (handleGenerateLoop env valid size fuel (attempt + 1)
             (if 1 < attempt + 1 then [] else buf) tok nxt).trace,
         (handleGenerateLoop env valid size fuel (attempt + 1)
           (if 1 < attempt + 1 then [] else buf) tok nxt).cacheMarked⟩ := by
  rw [handleGenerateLoop, if_pos h1, h2]
  simp only [Bool.false_eq_true, if_false]
  rw [h3]
  simp only [if_neg (by omega : ¬ maxRetries ≤ attempt + 1)]

lemma loop_trace_head (env : GenEnv) (valid : List Char → Bool) (size : Nat)
    (fuel attempt : Nat) (buf : List Char) (tok nxt : Nat)
    (h1 : attempt < maxRetries) (h2 : env.stopAtEntry attempt = false) :
    (handleGenerateLoop env valid size (fuel + 1) attempt buf tok nxt).trace.head?
      = some ⟨attempt + 1, if 1 < attempt + 1 then [] else buf, tok⟩ := by
  rw [handleGenerateLoop, if_pos h1, h2]
  simp only [Bool.false_eq_true, if_false]
  split
  · split
    · split
      · rfl
      · rfl
    · split
      · split
        · rfl
        · rfl
      · rfl
  · split
    · rfl
    · rfl
  · split
    · rfl
    · rfl

lemma loop_agree (valid : List Char → Bool) (size : Nat) :
    ∀ fuel (env₁ env₂ : GenEnv) attempt (buf₁ : List Char) (tok₁ nxt₁ : Nat)
      (buf₂ : List Char) (tok₂ nxt₂ : Nat),
      (∀ k, attempt ≤ k → env₁.stopAtEntry k = env₂.stopAtEntry k) →
      (∀ a, attempt < a → env₁.input a = env₂.input a) →
      (handleGenerateLoop env₁ valid size fuel attempt buf₁ tok₁ nxt₁).result
          = (handleGenerateLoop env₂ valid size fuel attempt buf₂ tok₂ nxt₂).result
        ∧ (handleGenerateLoop env₁ valid size fuel attempt buf₁ tok₁ nxt₁).trace.length
          = (handleGenerateLoop env₂ valid size fuel attempt buf₂ tok₂ nxt₂).trace.length
        ∧ (handleGenerateLoop env₁ valid size fuel attempt buf₁ tok₁ nxt₁).cacheMarked
          = (handleGenerateLoop env₂ valid size fuel attempt buf₂ tok₂ nxt₂).cacheMarked := by
  intro fuel
  induction fuel with
  | zero =>
      intro env₁ env₂ attempt buf₁ tok₁ nxt₁ buf₂ tok₂ nxt₂ _ _
      exact ⟨rfl, rfl, rfl⟩
  | succ fuel ih =>
      intro env₁ env₂ attempt buf₁ tok₁ nxt₁ buf₂ tok₂ nxt₂ hstop hinp
      rw [handleGenerateLoop, handleGenerateLoop]
      by_cases h1 : attempt < maxRetries
      · rw [if_pos h1, if_pos h1]
        rw [hstop attempt (Nat.le_refl attempt)]
        by_cases h2 : env₂.stopAtEntry attempt = true
        · rw [h2]
          simp
        · rw [Bool.not_eq_true] at h2
          rw [h2]
          simp only [Bool.false_eq_true, if_false]
          rw [hinp (attempt + 1) (Nat.lt_succ_self attempt)]
          have hstop2 : ∀ k, attempt + 1 ≤ k → env₁.stopAtEntry k = env₂.stopAtEntry k :=
            fun k hk => hstop k (by omega)
          have hinp2 : ∀ a, attempt + 1 < a → env₁.input a = env₂.input a :=
            fun a ha => hinp a (by omega)
          rcases henv : env₂.input (attempt + 1) with resp | stopFlag | _
          · dsimp only
            by_cases hms : (extract resp).isEmpty = true
            · rw [if_pos hms, if_pos hms]
              by_cases ha : attempt + 1 < maxRetries
              · rw [if_pos ha, if_pos ha]
                obtain ⟨e1, e2, e3⟩ := ih env₁ env₂ (attempt + 1) resp tok₁ nxt₁ resp tok₂ nxt₂ hstop2 hinp2
                exact ⟨e1, by simp only [List.length_cons, e2], e3⟩
              · rw [if_neg ha, if_neg ha]
                exact ⟨rfl, rfl, rfl⟩
            · rw [if_neg hms, if_neg hms]
              by_cases hvs : ((validateMatches valid size (extract resp)).validSVGs).isEmpty = true
              · rw [if_pos hvs, if_pos hvs]
                by_cases ha : attempt + 1 < maxRetries
                · rw [if_pos ha, if_pos ha]
                  obtain ⟨e1, e2, e3⟩ := ih env₁ env₂ (attempt + 1) resp tok₁ nxt₁ resp tok₂ nxt₂ hstop2 hinp2
                  exact ⟨e1, by simp only [List.length_cons, e2], e3⟩
                · rw [if_neg ha, if_neg ha]
                  exact ⟨rfl, rfl, rfl⟩
              · rw [if_neg hvs, if_neg hvs]
                exact ⟨rfl, rfl, rfl⟩
          · dsimp only
            by_cases hsf : stopFlag = true
            · rw [hsf]
              exact ⟨rfl, rfl, rfl⟩
            · rw [Bool.not_eq_true] at hsf
              rw [hsf]
              simp only [Bool.false_eq_true, if_false]
              obtain ⟨e1, e2, e3⟩ := ih env₁ env₂ (attempt + 1)
                (if 1 < attempt + 1 then [] else buf₁) nxt₁ (nxt₁ + 1)
                (if 1 < attempt + 1 then [] else buf₂) nxt₂ (nxt₂ + 1) hstop2 hinp2
              exact ⟨e1, by simp only [List.length_cons, e2], e3⟩
          · dsimp only
            by_cases ha : maxRetries ≤ attempt + 1
            · rw [if_pos ha, if_pos ha]
              exact ⟨rfl, rfl, rfl⟩
            · rw [if_neg ha, if_neg ha]
              obtain ⟨e1, e2, e3⟩ := ih env₁ env₂ (attempt + 1)
                (if 1 < attempt + 1 then [] else buf₁) tok₁ nxt₁
                (if 1 < attempt + 1 then [] else buf₂) tok₂ nxt₂ hstop2 hinp2
              exact ⟨e1, by simp only [List.length_cons, e2], e3⟩
      · rw [if_neg h1, if_neg h1]
        exact ⟨rfl, rfl, rfl⟩

lemma loop_size_indep (env : GenEnv) (valid : List Char → Bool) :
    ∀ fuel attempt (buf : List Char) (tok nxt s₁ s₂ : Nat),
      handleGenerateLoop env valid s₁ fuel attempt buf tok nxt
        = handleGenerateLoop env valid s₂ fuel attempt buf tok nxt := by
  intro fuel
  induction fuel with
  | zero => intro attempt buf tok nxt s₁ s₂; rfl
  | succ fuel ih =>
      intro attempt buf tok nxt s₁ s₂
      rw [handleGenerateLoop, handleGenerateLoop]
      by_cases h1 : attempt < maxRetries
      · rw [if_pos h1, if_pos h1]
        by_cases h2 : env.stopAtEntry attempt = true
        · rw [h2]
          rfl
        · rw [Bool.not_eq_true] at h2
          rw [h2]
          simp only [Bool.false_eq_true, if_false]
          rcases henv : env.input (attempt + 1) with resp | stopFlag | _
          · dsimp only
            rw [validateMatches_validSVGs valid s₁, validateMatches_validSVGs valid s₂]
            by_cases hms : (extract resp).isEmpty = true
            · rw [if_pos hms, if_pos hms]
              by_cases ha : attempt + 1 < maxRetries
              · rw [if_pos ha, if_pos ha, ih (attempt + 1) resp tok nxt s₁ s₂]
              · rw [if_neg ha, if_neg ha]
            · rw [if_neg hms, if_neg hms]
              by_cases hvs : ((extract resp).filter valid).isEmpty = true
              · rw [if_pos hvs, if_pos hvs]
                by_cases ha : attempt + 1 < maxRetries
                · rw [if_pos ha, if_pos ha, ih (attempt + 1) resp tok nxt s₁ s₂]
                · rw [if_neg ha, if_neg ha]
              · rw [if_neg hvs, if_neg hvs]
          · dsimp only
            by_cases hsf : stopFlag = true
            · rw [hsf]
              rfl
            · rw [Bool.not_eq_true] at hsf
              rw [hsf]
              simp only [Bool.false_eq_true, if_false]
              rw [ih (attempt + 1) (if 1 < attempt + 1 then [] else buf) nxt (nxt + 1) s₁ s₂]
          · dsimp only
            by_cases ha : maxRetries ≤ attempt + 1
            · rw [if_pos ha, if_pos ha]
            · rw [if_neg ha, if_neg ha,
                ih (attempt + 1) (if 1 < attempt + 1 then [] else buf) tok nxt s₁ s₂]
      · rw [if_neg h1, if_neg h1]

/-- A recoverable attempt outcome in the sense of the spec: the stream
completed but no candidate survives validation (covering both "no
structural candidates" and "no valid block"), or a non-abort transport
failure.  User aborts are not recoverable outcomes. -/
def recoverable (valid : List Char → Bool) : AttemptInput → Prop
  | .completed resp => (extract resp).filter valid = []
  | .aborted _ => False
  | .failed => True

/-- The terminal failure carried by the last attempt's cause. -/
def fatalFor : AttemptInput → FinalResult
  | .completed resp => if (extract resp).isEmpty then .fatalNoMatch else .fatalNoValid
  | .aborted _ => .stopped
  | .failed => .fatalTransport

lemma loop_recover (env : GenEnv) (valid : List Char → Bool) (size : Nat)
    (hstop : ∀ k, env.stopAtEntry k = false)
    (hrec : ∀ a, recoverable valid (env.input a)) :
    ∀ fuel attempt (buf : List Char) (tok nxt : Nat),
      attempt < maxRetries → maxRetries ≤ fuel + attempt →
      (handleGenerateLoop env valid size fuel attempt buf tok nxt).result
          = fatalFor (env.input maxRetries)
        ∧ (handleGenerateLoop env valid size fuel attempt buf tok nxt).trace.length
          = maxRetries - attempt := by
  intro fuel
  induction fuel with
  | zero =>
      intro attempt buf tok nxt h1 h2
      omega
  | succ fuel ih =>
      intro attempt buf tok nxt h1 h2
      rw [handleGenerateLoop, if_pos h1, hstop attempt]
      simp only [Bool.false_eq_true, if_false]
      have hr := hrec (attempt + 1)
      rcases henv : env.input (attempt + 1) with resp | stopFlag | _
      · rw [henv] at hr
        dsimp only [recoverable] at hr
        dsimp only
        by_cases hms : (extract resp).isEmpty = true
        · rw [if_pos hms]
          by_cases ha : attempt + 1 < maxRetries
          · rw [if_pos ha]
            obtain ⟨e1, e2⟩ := ih (attempt + 1) resp tok nxt ha (by omega)
            refine ⟨e1, ?_⟩
            simp only [List.length_cons, e2]
            omega
          · rw [if_neg ha]
            have haeq : attempt + 1 = maxRetries := by omega
            refine ⟨?_, by simp only [List.length_cons, List.length_nil]; omega⟩
            rw [← haeq, henv]
            dsimp only [fatalFor]
            rw [if_pos hms]
        · rw [if_neg hms]
          rw [validateMatches_validSVGs]
          have hvs : ((extract resp).filter valid).isEmpty = true := by
            rw [hr]; rfl
          rw [if_pos hvs]
          by_cases ha : attempt + 1 < maxRetries
          · rw [if_pos ha]
            obtain ⟨e1, e2⟩ := ih (attempt + 1) resp tok nxt ha (by omega)
            refine ⟨e1, ?_⟩
            simp only [List.length_cons, e2]
            omega
          · rw [if_neg ha]
            have haeq : attempt + 1 = maxRetries := by omega
            refine ⟨?_, by simp only [List.length_cons, List.length_nil]; omega⟩
            rw [← haeq, henv]
            dsimp only [fatalFor]
            rw [if_neg (by rwa [Bool.not_eq_true] at hms ⊢)]
      · rw [henv] at hr
        exact absurd hr (by dsimp only [recoverable]; exact not_false)
      · dsimp only
        by_cases ha : maxRetries ≤ attempt + 1
        · rw [if_pos ha]
          have haeq : attempt + 1 = maxRetries := by omega
          refine ⟨?_, by simp only [List.length_cons, List.length_nil]; omega⟩
          rw [← haeq, henv]
          rfl
        · rw [if_neg ha]
          obtain ⟨e1, e2⟩ := ih (attempt + 1) (if 1 < attempt + 1 then [] else buf) tok nxt
            (by omega) (by omega)
          refine ⟨e1, ?_⟩
          simp only [List.length_cons, e2]
          omega

lemma loop_success (env : GenEnv) (valid : List Char → Bool) (size : Nat)
    (fuel attempt : Nat) (buf : List Char) (tok nxt : Nat) (resp : List Char)
    (h1 : attempt < maxRetries) (h2 : env.stopAtEntry attempt = false)
    (h3 : env.input (attempt + 1) = .completed resp)
    (h4 : (extract resp).filter valid ≠ []) :
    handleGenerateLoop env valid size (fuel + 1) attempt buf tok nxt
      = ⟨.succeeded ((extract resp).filter valid) (((extract resp).filter valid).length - 1),
         [⟨attempt + 1, if 1 < attempt + 1 then [] else buf, tok⟩], true⟩ := by
  rw [handleGenerateLoop, if_pos h1, h2]
  simp only [Bool.false_eq_true, if_false]
  rw [h3]
  dsimp only
  have hms : ¬ ((extract resp).isEmpty = true) := by
    rw [List.isEmpty_iff]
    intro hempty
    exact h4 (by rw [hempty]; rfl)
  rw [if_neg hms, validateMatches_validSVGs]
  rw [if_neg (by rwa [List.isEmpty_iff])]

lemma loop_nomatch_step (env : GenEnv) (valid : List Char → Bool) (size : Nat)
    (fuel attempt : Nat) (buf : List Char) (tok nxt : Nat) (resp : List Char)
    (h1 : attempt < maxRetries) (h2 : env.stopAtEntry attempt = false)
    (h3 : env.input (attempt + 1) = .completed resp)
    (h4 : (extract resp).filter valid = [])
    (h5 : attempt + 1 < maxRetries) :
    handleGenerateLoop env valid size (fuel + 1) attempt buf tok nxt
      = ⟨(handleGenerateLoop env valid size fuel (attempt + 1) resp tok nxt).result,
         ⟨attempt + 1, if 1 < attempt + 1 then [] else buf, tok⟩ ::
           (handleGenerateLoop env valid size fuel (attempt + 1) resp tok nxt).trace,
         (handleGenerateLoop env valid size fuel (attempt + 1) resp tok nxt).cacheMarked⟩ := by
  rw [handleGenerateLoop, if_pos h1, h2]
  simp only [Bool.false_eq_true, if_false]
  rw [h3]
  dsimp only
  by_cases hms : (extract resp).isEmpty = true
  · rw [if_pos hms, if_pos h5]
  · rw [if_neg hms, validateMatches_validSVGs]
    rw [if_pos (by rw [h4]; rfl), if_pos h5]

/-- Claim C1: for every generation call in which every attempt ends in a
recoverable outcome (no structural candidates, no valid block, or a
non-abort transport failure), `handleGenerate` performs at most 10 attempts
(`maxRetries = 10`, the shared hard ceiling across all failure causes) and
then terminates as a fatal failure carrying the last cause; the trace of
issued attempts never exceeds `maxRetries` for any environment. -/
theorem handleGenerate_retry_bound :
    maxRetries = 10
  ∧ (∀ (env : GenEnv) (valid : List Char → Bool) (size : Nat),
      (handleGenerate env valid size).trace.length ≤ maxRetries)
  ∧ (∀ (env : GenEnv) (valid : List Char → Bool) (size : Nat),
      (∀ k, env.stopAtEntry k = false) →
      (∀ a, recoverable valid (env.input a)) →
      (handleGenerate env valid size).result = fatalFor (env.input maxRetries)
        ∧ (handleGenerate env valid size).trace.length = maxRetries) := by
  refine ⟨rfl, ?_, ?_⟩
  · intro env valid size
    have := loop_trace_bound env valid size maxRetries 0 [] 0 1
    simpa using this
  · intro env valid size hstop hrec
    have := loop_recover env valid size hstop hrec maxRetries 0 [] 0 1
      (by decide) (by omega)
    simpa using this

/-- Witness for C1: an environment whose every attempt is a transport
failure exhausts exactly the 10-attempt budget and ends with the transport
cause. -/
theorem handleGenerate_retry_bound_witness :
    (handleGenerate ⟨fun _ => false, fun _ => AttemptInput.failed⟩ (fun _ => false) 64).result
        = FinalResult.fatalTransport
  ∧ (handleGenerate ⟨fun _ => false, fun _ => AttemptInput.failed⟩ (fun _ => false) 64).trace.length
        = maxRetries :=
  handleGenerate_retry_bound.2.2 ⟨fun _ => false, fun _ => AttemptInput.failed⟩
    (fun _ => false) 64 (fun _ => rfl) (fun _ => trivial)

/-- Counterexample to claim C2 as stated: `handleStop` only calls
`interruptGenerate` — `controller.abort()` is never called anywhere — so a
stop issued while an attempt streams can let the stream resolve with the
partial text (a `completed` outcome).  Here the stop intent is up from
attempt 1 on (`stopAtEntry k` for every `k ≥ 1`), yet the partial buffer
holds a valid block, so the call terminates `succeeded` and returns an
artifact instead of stopping with none. -/
theorem stop_midstream_can_return_artifacts :
    handleGenerate
        ⟨fun k => decide (1 ≤ k),
         fun _ => AttemptInput.completed
           ("<svg viewBox=\"0 0 64 64\"><circle r=\"10\"/></svg>".toList)⟩
        (fun _ => true) 64
      = ⟨FinalResult.succeeded
            ["<svg viewBox=\"0 0 64 64\"><circle r=\"10\"/></svg>".toList] 0,
         [⟨1, [], 0⟩], true⟩ := by decide

/-- Claim C2 as amended: a stop intent set before an attempt begins makes
the orchestrator terminate immediately with no streaming call (empty
trace), and `handleStop` on a live controller raises the stop flag and
invokes the adapter interrupt.  For a stop invoked while an attempt is
streaming, the outcome depends on how the interrupted stream ends: an
abort-style rejection with the stop flag up ends the call `stopped` with
only the in-flight attempt in the trace and no artifacts; a stream that
resolves with partial text holding no valid block ends `stopped` at the
next loop entry, with no further streaming call; but a resolved partial
text holding a valid block makes the call succeed and return artifacts. -/
theorem stop_semantics :
    (∀ (env : GenEnv) (valid : List Char → Bool) (size fuel attempt : Nat)
        (buf : List Char) (tok nxt : Nat),
      attempt < maxRetries → env.stopAtEntry attempt = true →
      handleGenerateLoop env valid size (fuel + 1) attempt buf tok nxt
        = ⟨FinalResult.stopped, [], false⟩)
  ∧ (∀ (st : StopState) (c : Nat), st.abortController = some c →
      (handleStop st).shouldStop = true ∧ (handleStop st).interruptCalled = true
        ∧ (handleStop st).abortController = none)
  ∧ (∀ (env : GenEnv) (valid : List Char → Bool) (size fuel attempt : Nat)
        (buf : List Char) (tok nxt : Nat),
      attempt < maxRetries → env.stopAtEntry attempt = false →
      env.input (attempt + 1) = AttemptInput.aborted true →
      handleGenerateLoop env valid size (fuel + 1) attempt buf tok nxt
        = ⟨FinalResult.stopped,
           [⟨attempt + 1, if 1 < attempt + 1 then [] else buf, tok⟩], false⟩)
  ∧ (∀ (env : GenEnv) (valid : List Char → Bool) (size fuel attempt : Nat)
        (buf : List Char) (tok nxt : Nat) (resp : List Char),
      attempt < maxRetries → env.stopAtEntry attempt = false →
      env.stopAtEntry (attempt + 1) = true →
      env.input (attempt + 1) = AttemptInput.completed resp →
      (extract resp).filter valid = [] →
      attempt + 1 < maxRetries →
      handleGenerateLoop env valid size (fuel + 2) attempt buf tok nxt
        = ⟨FinalResult.stopped,
           [⟨attempt + 1, if 1 < attempt + 1 then [] else buf, tok⟩], false⟩)
  ∧ (∀ (env : GenEnv) (valid : List Char → Bool) (size fuel attempt : Nat)
        (buf : List Char) (tok nxt : Nat) (resp : List Char),
      attempt < maxRetries → env.stopAtEntry attempt = false →
      env.input (attempt + 1) = AttemptInput.completed resp →
      (extract resp).filter valid ≠ [] →
      handleGenerateLoop env valid size (fuel + 1) attempt buf tok nxt
        = ⟨FinalResult.succeeded ((extract resp).filter valid)
              (((extract resp).filter valid).length - 1),
           [⟨attempt + 1, if 1 < attempt + 1 then [] else buf, tok⟩], true⟩) := by
  refine ⟨?_, ?_, ?_, ?_, ?_⟩
  · intro env valid size fuel attempt buf tok nxt h1 h2
    exact loop_stop_entry env valid size fuel attempt buf tok nxt h1 h2
  · intro st c hc
    rw [handleStop, hc]
    exact ⟨rfl, rfl, rfl⟩
  · intro env valid size fuel attempt buf tok nxt h1 h2 h3
    exact loop_abort_stop env valid size fuel attempt buf tok nxt h1 h2 h3
  · intro env valid size fuel attempt buf tok nxt resp h1 h2 h3 h4 h5 h6
    rw [loop_nomatch_step env valid size (fuel + 1) attempt buf tok nxt resp h1 h2 h4 h5 h6]
    rw [loop_stop_entry env valid size fuel (attempt + 1) resp tok nxt h6 h3]
  · intro env valid size fuel attempt buf tok nxt resp h1 h2 h3 h4
    exact loop_success env valid size fuel attempt buf tok nxt resp h1 h2 h3 h4

/-- Witness for the amended C2 at concrete inputs: stop set before attempt
1 yields an immediate stop with no attempts; `handleStop` on a live
controller; a stop-flagged abort during attempt 1 ends stopped after that
single attempt; a stream resolving without a valid block under a raised
stop flag ends stopped at the next entry; a stream resolving with a valid
block succeeds. -/
theorem stop_semantics_witness :
    handleGenerateLoop ⟨fun _ => true, fun _ => AttemptInput.failed⟩ (fun _ => false) 64
        maxRetries 0 [] 0 1 = ⟨FinalResult.stopped, [], false⟩
  ∧ ((handleStop ⟨some 0, false, false, some 5⟩).shouldStop = true
      ∧ (handleStop ⟨some 0, false, false, some 5⟩).interruptCalled = true
      ∧ (handleStop ⟨some 0, false, false, some 5⟩).abortController = none)
  ∧ handleGenerateLoop ⟨fun _ => false, fun _ => AttemptInput.aborted true⟩ (fun _ => false) 64
        maxRetries 0 [] 0 1
      = ⟨FinalResult.stopped, [⟨1, if 1 < 1 then [] else [], 0⟩], false⟩
  ∧ handleGenerateLoop
        ⟨fun k => decide (1 ≤ k), fun _ => AttemptInput.completed ("no graphics here".toList)⟩
        (fun _ => true) 64 maxRetries 0 [] 0 1
      = ⟨FinalResult.stopped, [⟨1, if 1 < 1 then [] else [], 0⟩], false⟩
  ∧ handleGenerateLoop
        ⟨fun _ => false,
         fun _ => AttemptInput.completed
           ("<svg viewBox=\"0 0 64 64\"><circle r=\"10\"/></svg>".toList)⟩
        (fun _ => true) 64 maxRetries 0 [] 0 1
      = ⟨FinalResult.succeeded
            ((extract ("<svg viewBox=\"0 0 64 64\"><circle r=\"10\"/></svg>".toList)).filter
              (fun _ => true))
            (((extract ("<svg viewBox=\"0 0 64 64\"><circle r=\"10\"/></svg>".toList)).filter
              (fun _ => true)).length - 1),
         [⟨1, if 1 < 1 then [] else [], 0⟩], true⟩ :=
  ⟨stop_semantics.1 ⟨fun _ => true, fun _ => AttemptInput.failed⟩ (fun _ => false) 64
      9 0 [] 0 1 (by decide) rfl,
   stop_semantics.2.1 ⟨some 0, false, false, some 5⟩ 0 rfl,
   stop_semantics.2.2.1 ⟨fun _ => false, fun _ => AttemptInput.aborted true⟩ (fun _ => false) 64
      9 0 [] 0 1 (by decide) rfl rfl,
   stop_semantics.2.2.2.1
      ⟨fun k => decide (1 ≤ k), fun _ => AttemptInput.completed ("no graphics here".toList)⟩
      (fun _ => true) 64 8 0 [] 0 1 ("no graphics here".toList)
      (by decide) rfl rfl rfl (by decide) (by decide),
   stop_semantics.2.2.2.2
      ⟨fun _ => false,
       fun _ => AttemptInput.completed
         ("<svg viewBox=\"0 0 64 64\"><circle r=\"10\"/></svg>".toList)⟩
      (fun _ => true) 64 9 0 [] 0 1
      ("<svg viewBox=\"0 0 64 64\"><circle r=\"10\"/></svg>".toList)
      (by decide) rfl rfl (by decide)⟩

lemma loop_guard_false (env : GenEnv) (valid : List Char → Bool) (size : Nat)
    (fuel attempt : Nat) (buf : List Char) (tok nxt : Nat)
    (h1 : ¬ attempt < maxRetries) :
    handleGenerateLoop env valid size fuel attempt buf tok nxt
      = ⟨.fatalMaxReached, [], false⟩ := by
  cases fuel with
  | zero => rfl
  | succ fuel => rw [handleGenerateLoop, if_neg h1]

lemma loop_trans_fatal (env : GenEnv) (valid : List Char → Bool) (size : Nat)
    (fuel attempt : Nat) (buf : List Char) (tok nxt : Nat)
    (h1 : attempt < maxRetries) (h2 : env.stopAtEntry attempt = false)
    (h3 : env.input (attempt + 1) = .failed) (h4 : maxRetries ≤ attempt + 1) :
    handleGenerateLoop env valid size (fuel + 1) attempt buf tok nxt
      = ⟨.fatalTransport, [⟨attempt + 1, if 1 < attempt + 1 then [] else buf, tok⟩], false⟩ := by
  rw [handleGenerateLoop, if_pos h1, h2]
  simp only [Bool.false_eq_true, if_false]
  rw [h3]
  dsimp only
  rw [if_pos h4]

/-- Counterexample to claim C3 as stated: `handleRetry` only calls
`interruptGenerate` — `controller.abort()` is never called anywhere — so a
skip issued mid-stream can let the stream resolve with the partial text (a
`completed` outcome).  First run: the partial text holds no block, so the
loop retries, and attempt 2 streams under the same controller identity 0 as
attempt 1 — no fresh cancellation token (the fresh controller is created
only inside the abort catch).  Second run: the partial text holds a valid
block, so the call succeeds after attempt 1 and no new attempt begins at
all. -/
theorem skip_midstream_keeps_token_or_succeeds :
    ((handleGenerate
        ⟨fun _ => false,
         fun a => if a = 1 then AttemptInput.completed ("no graphics here".toList)
                  else AttemptInput.failed⟩
        (fun _ => true) 64).trace.take 2)
      = [⟨1, [], 0⟩, ⟨2, [], 0⟩]
  ∧ (handleGenerate
        ⟨fun _ => false,
         fun _ => AttemptInput.completed
           ("<svg viewBox=\"0 0 64 64\"><circle r=\"10\"/></svg>".toList)⟩
        (fun _ => true) 64).trace
      = [⟨1, [], 0⟩] := by decide

/-- Claim C3 as amended: invoking `skip()` mid-stream calls the adapter
interrupt, leaving the stop flag and the controller untouched.  When the
interrupted attempt surfaces as an abort-style rejection with the stop flag
down, only that attempt terminates: the loop continues at the next ordinal
under a freshly manufactured token, the next attempt that starts does so
with an empty accumulated buffer and a token different from the interrupted
one, and the skip consumes exactly as much of the shared remaining-attempts
budget as a transport failure would (equal trace lengths against the same
continuation).  When the interrupt instead lets the stream resolve with the
partial text, the attempt completes normally: a valid block in it makes the
call succeed with no new attempt, and no valid block leads to a retry whose
next attempt begins with an empty buffer but under the same cancellation
token. -/
theorem skip_semantics :
    (∀ (env : GenEnv) (valid : List Char → Bool) (size fuel attempt : Nat)
        (buf : List Char) (tok nxt : Nat),
      attempt < maxRetries → env.stopAtEntry attempt = false →
      env.input (attempt + 1) = AttemptInput.aborted false →
      handleGenerateLoop env valid size (fuel + 1) attempt buf tok nxt
        = ⟨(handleGenerateLoop env valid size fuel (attempt + 1)
              (if 1 < attempt + 1 then [] else buf) nxt (nxt + 1)).result,
           ⟨attempt + 1, if 1 < attempt + 1 then [] else buf, tok⟩ ::
             (handleGenerateLoop env valid size fuel (attempt + 1)
               (if 1 < attempt + 1 then [] else buf) nxt (nxt + 1)).trace,
           (handleGenerateLoop env valid size fuel (attempt + 1)
             (if 1 < attempt + 1 then [] else buf) nxt (nxt + 1)).cacheMarked⟩)
  ∧ (∀ (env : GenEnv) (valid : List Char → Bool) (size fuel attempt : Nat)
        (buf : List Char) (tok nxt : Nat),
      attempt + 1 < maxRetries →
      env.stopAtEntry attempt = false → env.stopAtEntry (attempt + 1) = false →
      env.input (attempt + 1) = AttemptInput.aborted false →
      tok < nxt →
      ((handleGenerateLoop env valid size (fuel + 2) attempt buf tok nxt).trace.drop 1).head?
          = some ⟨attempt + 2, [], nxt⟩
        ∧ nxt ≠ tok)
  ∧ (∀ st : StopState,
      (handleRetry st).shouldStop = st.shouldStop
        ∧ (handleRetry st).abortController = st.abortController
        ∧ (∀ c, st.abortController = some c → (handleRetry st).interruptCalled = true))
  ∧ (∀ (env₁ env₂ : GenEnv) (valid : List Char → Bool) (size fuel attempt : Nat)
        (buf : List Char) (tok nxt : Nat),
      (∀ k, env₁.stopAtEntry k = env₂.stopAtEntry k) →
      (∀ a, a ≠ attempt + 1 → env₁.input a = env₂.input a) →
      env₁.input (attempt + 1) = AttemptInput.aborted false →
      env₂.input (attempt + 1) = AttemptInput.failed →
      (handleGenerateLoop env₁ valid size fuel attempt buf tok nxt).trace.length
        = (handleGenerateLoop env₂ valid size fuel attempt buf tok nxt).trace.length)
  ∧ (∀ (env : GenEnv) (valid : List Char → Bool) (size fuel attempt : Nat)
        (buf : List Char) (tok nxt : Nat) (resp : List Char),
      attempt < maxRetries → env.stopAtEntry attempt = false →
      env.input (attempt + 1) = AttemptInput.completed resp →
      (extract resp).filter valid ≠ [] →
      handleGenerateLoop env valid size (fuel + 1) attempt buf tok nxt
        = ⟨FinalResult.succeeded ((extract resp).filter valid)
              (((extract resp).filter valid).length - 1),
           [⟨attempt + 1, if 1 < attempt + 1 then [] else buf, tok⟩], true⟩)
  ∧ (∀ (env : GenEnv) (valid : List Char → Bool) (size fuel attempt : Nat)
        (buf : List Char) (tok nxt : Nat) (resp : List Char),
      attempt < maxRetries → env.stopAtEntry attempt = false →
      env.stopAtEntry (attempt + 1) = false →
      env.input (attempt + 1) = AttemptInput.completed resp →
      (extract resp).filter valid = [] →
      attempt + 1 < maxRetries →
      ((handleGenerateLoop env valid size (fuel + 2) attempt buf tok nxt).trace.drop 1).head?
        = some ⟨attempt + 2, [], tok⟩) := by
  refine ⟨?_, ?_, ?_, ?_, ?_, ?_⟩
  · intro env valid size fuel attempt buf tok nxt h1 h2 h3
    exact loop_skip_step env valid size fuel attempt buf tok nxt h1 h2 h3
  · intro env valid size fuel attempt buf tok nxt h1 h2 h2' h3 h4
    constructor
    · rw [loop_skip_step env valid size (fuel + 1) attempt buf tok nxt (by omega) h2 h3]
      have hhead := loop_trace_head env valid size fuel (attempt + 1)
        (if 1 < attempt + 1 then [] else buf) nxt (nxt + 1) h1 h2'
      simp only [List.drop_succ_cons, List.drop_zero]
      rw [hhead]
      rw [if_pos (by omega : 1 < attempt + 1 + 1)]
    · omega
  · intro st
    refine ⟨?_, ?_, ?_⟩
    · rw [handleRetry]
      cases st.abortController <;> rfl
    · rw [handleRetry]
      cases hc : st.abortController <;> simp [hc]
    · intro c hc
      rw [handleRetry, hc]
  · intro env₁ env₂ valid size fuel attempt buf tok nxt hstop hinp h1 h2
    cases fuel with
    | zero => rfl
    | succ fuel =>
        by_cases hg : attempt < maxRetries
        · by_cases hs : env₁.stopAtEntry attempt = true
          · rw [loop_stop_entry env₁ valid size fuel attempt buf tok nxt hg hs,
              loop_stop_entry env₂ valid size fuel attempt buf tok nxt hg
                (by rw [← hstop attempt]; exact hs)]
          · rw [Bool.not_eq_true] at hs
            have hs2 : env₂.stopAtEntry attempt = false := by rw [← hstop attempt]; exact hs
            rw [loop_skip_step env₁ valid size fuel attempt buf tok nxt hg hs h1]
            have hstop2 : ∀ k, attempt + 1 ≤ k → env₁.stopAtEntry k = env₂.stopAtEntry k :=
              fun k _ => hstop k
            have hinp2 : ∀ a, attempt + 1 < a → env₁.input a = env₂.input a :=
              fun a ha => hinp a (by omega)
            by_cases ha : attempt + 1 < maxRetries
            · rw [loop_trans_step env₂ valid size fuel attempt buf tok nxt hg hs2 h2 ha]
              obtain ⟨_, e2, _⟩ := loop_agree valid size fuel env₁ env₂ (attempt + 1)
                (if 1 < attempt + 1 then [] else buf) nxt (nxt + 1)
                (if 1 < attempt + 1 then [] else buf) tok nxt hstop2 hinp2
              simp only [List.length_cons, e2]
            · rw [loop_trans_fatal env₂ valid size fuel attempt buf tok nxt hg hs2 h2 (by omega)]
              rw [loop_guard_false env₁ valid size fuel (attempt + 1)
                (if 1 < attempt + 1 then [] else buf) nxt (nxt + 1) ha]
        · rw [loop_guard_false env₁ valid size (fuel + 1) attempt buf tok nxt hg,
            loop_guard_false env₂ valid size (fuel + 1) attempt buf tok nxt hg]
  · intro env valid size fuel attempt buf tok nxt resp h1 h2 h3 h4
    exact loop_success env valid size fuel attempt buf tok nxt resp h1 h2 h3 h4
  · intro env valid size fuel attempt buf tok nxt resp h1 h2 h2' h3 h4 h5
    rw [loop_nomatch_step env valid size (fuel + 1) attempt buf tok nxt resp h1 h2 h3 h4 h5]
    simp only [List.drop_succ_cons, List.drop_zero]
    rw [loop_trace_head env valid size fuel (attempt + 1) resp tok nxt h5 h2']
    rw [if_pos (by omega : 1 < attempt + 1 + 1)]

/-- Witness for the amended C3 at concrete inputs: a skip-abort on attempt
1 leads to attempt 2 starting with an empty buffer and the fresh token 1;
`handleRetry` on a live controller; the skip-versus-transport trace lengths
agree for a concrete environment pair; a stream resolving with a valid
block succeeds with a single attempt; and a stream resolving without one
retries into attempt 2 under the same token 0. -/
theorem skip_semantics_witness :
    handleGenerateLoop
        ⟨fun _ => false, fun a => if a = 1 then AttemptInput.aborted false else AttemptInput.failed⟩
        (fun _ => false) 64 10 0 [] 0 1
      = ⟨(handleGenerateLoop
            ⟨fun _ => false, fun a => if a = 1 then AttemptInput.aborted false else AttemptInput.failed⟩
            (fun _ => false) 64 9 1 (if 1 < 1 then [] else []) 1 2).result,
         ⟨1, if 1 < 1 then [] else [], 0⟩ ::
           (handleGenerateLoop
             ⟨fun _ => false, fun a => if a = 1 then AttemptInput.aborted false else AttemptInput.failed⟩
             (fun _ => false) 64 9 1 (if 1 < 1 then [] else []) 1 2).trace,
         (handleGenerateLoop
           ⟨fun _ => false, fun a => if a = 1 then AttemptInput.aborted false else AttemptInput.failed⟩
           (fun _ => false) 64 9 1 (if 1 < 1 then [] else []) 1 2).cacheMarked⟩
  ∧ (((handleGenerateLoop
        ⟨fun _ => false, fun a => if a = 1 then AttemptInput.aborted false else AttemptInput.failed⟩
        (fun _ => false) 64 10 0 [] 0 1).trace.drop 1).head? = some ⟨2, [], 1⟩
      ∧ (1 : Nat) ≠ 0)
  ∧ ((handleRetry ⟨some 0, false, false, some 5⟩).shouldStop = false
      ∧ (handleRetry ⟨some 0, false, false, some 5⟩).abortController = some 0
      ∧ (handleRetry ⟨some 0, false, false, some 5⟩).interruptCalled = true)
  ∧ (handleGenerateLoop
        ⟨fun _ => false, fun a => if a = 1 then AttemptInput.aborted false else AttemptInput.failed⟩
        (fun _ => false) 64 10 0 [] 0 1).trace.length
      = (handleGenerateLoop ⟨fun _ => false, fun _ => AttemptInput.failed⟩
          (fun _ => false) 64 10 0 [] 0 1).trace.length
  ∧ handleGenerateLoop
        ⟨fun _ => false,
         fun _ => AttemptInput.completed
           ("<svg viewBox=\"0 0 32 32\"><rect width=\"32\" height=\"32\"/></svg>".toList)⟩
        (fun _ => true) 32 10 0 [] 0 1
      = ⟨FinalResult.succeeded
            ((extract ("<svg viewBox=\"0 0 32 32\"><rect width=\"32\" height=\"32\"/></svg>".toList)).filter
              (fun _ => true))
            (((extract ("<svg viewBox=\"0 0 32 32\"><rect width=\"32\" height=\"32\"/></svg>".toList)).filter
              (fun _ => true)).length - 1),
         [⟨1, if 1 < 1 then [] else [], 0⟩], true⟩
  ∧ ((handleGenerateLoop
        ⟨fun _ => false,
         fun a => if a = 1 then AttemptInput.completed ("no graphics here".toList)
                  else AttemptInput.failed⟩
        (fun _ => true) 64 10 0 [] 0 1).trace.drop 1).head? = some ⟨2, [], 0⟩ := by
  refine ⟨?_, ?_, ?_, ?_, ?_, ?_⟩
  · exact skip_semantics.1 _ (fun _ => false) 64 9 0 [] 0 1 (by decide) rfl (by decide)
  · exact skip_semantics.2.1 _ (fun _ => false) 64 8 0 [] 0 1 (by decide) rfl rfl (by decide)
      (by decide)
  · refine ⟨?_, ?_, ?_⟩
    · exact (skip_semantics.2.2.1 ⟨some 0, false, false, some 5⟩).1
    · exact (skip_semantics.2.2.1 ⟨some 0, false, false, some 5⟩).2.1
    · exact (skip_semantics.2.2.1 ⟨some 0, false, false, some 5⟩).2.2 0 rfl
  · exact skip_semantics.2.2.2.1
      ⟨fun _ => false, fun a => if a = 1 then AttemptInput.aborted false else AttemptInput.failed⟩
      ⟨fun _ => false, fun _ => AttemptInput.failed⟩ (fun _ => false) 64 10 0 [] 0 1
      (fun _ => rfl) (fun a ha => by simp [if_neg ha]) (by decide) rfl
  · exact skip_semantics.2.2.2.2.1
      ⟨fun _ => false,
       fun _ => AttemptInput.completed
         ("<svg viewBox=\"0 0 32 32\"><rect width=\"32\" height=\"32\"/></svg>".toList)⟩
      (fun _ => true) 32 9 0 [] 0 1
      ("<svg viewBox=\"0 0 32 32\"><rect width=\"32\" height=\"32\"/></svg>".toList)
      (by decide) rfl rfl (by decide)
  · exact skip_semantics.2.2.2.2.2
      ⟨fun _ => false,
       fun a => if a = 1 then AttemptInput.completed ("no graphics here".toList)
                else AttemptInput.failed⟩
      (fun _ => true) 64 8 0 [] 0 1 ("no graphics here".toList)
      (by decide) rfl rfl rfl (by decide) (by decide)

/-- Claim C6: a structurally valid block whose declared viewBox size
differs from the requested dimension is still accepted: the surviving
valid-block list is exactly the structural filter regardless of the size
check; a mismatching valid block is pushed and logged as one warning; and
the requested size never changes the orchestrator's outcome (so a mismatch
never triggers a retry). -/
theorem size_mismatch_nonfatal :
    (∀ (valid : List Char → Bool) (size : Nat) (ms : List (List Char)),
        (validateMatches valid size ms).validSVGs = ms.filter valid)
  ∧ (∀ (valid : List Char → Bool) (size : Nat) (svg : List Char),
        valid svg = true → sizeWarn size svg = true →
        (validateMatches valid size [svg]).validSVGs = [svg]
          ∧ (validateMatches valid size [svg]).warnCount = 1)
  ∧ (∀ (env : GenEnv) (valid : List Char → Bool) (fuel attempt : Nat)
        (buf : List Char) (tok nxt s₁ s₂ : Nat),
        handleGenerateLoop env valid s₁ fuel attempt buf tok nxt
          = handleGenerateLoop env valid s₂ fuel attempt buf tok nxt) := by
  refine ⟨validateMatches_validSVGs, ?_, ?_⟩
  · intro valid size svg hv hw
    constructor
    · rw [validateMatches_validSVGs, List.filter_cons, hv]
      rfl
    · rw [validateMatches, List.foldl_cons, List.foldl_nil, hv]
      simp [hw]
  · intro env valid fuel attempt buf tok nxt s₁ s₂
    exact loop_size_indep env valid fuel attempt buf tok nxt s₁ s₂

/-- Witness for C6: a valid block declaring `viewBox="0 0 32 32"` against a
requested size of 64 is accepted into the valid set with exactly one
size-mismatch warning. -/
theorem size_mismatch_nonfatal_witness :
    (validateMatches (fun _ => true) 64 ["<svg viewBox=\"0 0 32 32\"></svg>".toList]).validSVGs
        = ["<svg viewBox=\"0 0 32 32\"></svg>".toList]
      ∧ (validateMatches (fun _ => true) 64 ["<svg viewBox=\"0 0 32 32\"></svg>".toList]).warnCount
        = 1 :=
  size_mismatch_nonfatal.2.1 (fun _ => true) 64 ("<svg viewBox=\"0 0 32 32\"></svg>".toList)
    rfl (by decide)

/-- Claim C7: whenever an attempt yields at least one valid block, the
orchestrator returns the full valid-block list, selects the last valid
block (index `length - 1`), marks the model as cache-resident
(`cacheMarked`), and terminates successfully with no further attempts; the
selected index is the last element of the list. -/
theorem success_selects_last :
    (∀ (env : GenEnv) (valid : List Char → Bool) (size fuel attempt : Nat)
        (buf : List Char) (tok nxt : Nat) (resp : List Char),
      attempt < maxRetries → env.stopAtEntry attempt = false →
      env.input (attempt + 1) = AttemptInput.completed resp →
      (extract resp).filter valid ≠ [] →
      handleGenerateLoop env valid size (fuel + 1) attempt buf tok nxt
        = ⟨FinalResult.succeeded ((extract resp).filter valid)
              (((extract resp).filter valid).length - 1),
           [⟨attempt + 1, if 1 < attempt + 1 then [] else buf, tok⟩], true⟩)
  ∧ (∀ l : List (List Char), l.getLast? = l[l.length - 1]?) := by
  constructor
  · intro env valid size fuel attempt buf tok nxt resp h1 h2 h3 h4
    exact loop_success env valid size fuel attempt buf tok nxt resp h1 h2 h3 h4
  · intro l
    rw [List.getLast?_eq_getElem?]

/-- Witness for C7: one streamed fragment containing a single valid block
succeeds on attempt 1, returns that block, selects index 0, and marks the
model cached. -/
theorem success_selects_last_witness :
    handleGenerateLoop
        ⟨fun _ => false,
         fun _ => AttemptInput.completed ("<svg viewBox=\"0 0 64 64\"><circle r=\"10\"/></svg>".toList)⟩
        (fun _ => true) 64 10 0 [] 0 1
      = ⟨FinalResult.succeeded
            ((extract ("<svg viewBox=\"0 0 64 64\"><circle r=\"10\"/></svg>".toList)).filter
              (fun _ => true))
            (((extract ("<svg viewBox=\"0 0 64 64\"><circle r=\"10\"/></svg>".toList)).filter
              (fun _ => true)).length - 1),
         [⟨1, if 1 < 1 then [] else [], 0⟩], true⟩ :=
  success_selects_last.1
    ⟨fun _ => false,
     fun _ => AttemptInput.completed ("<svg viewBox=\"0 0 64 64\"><circle r=\"10\"/></svg>".toList)⟩
    (fun _ => true) 64 9 0 [] 0 1
    ("<svg viewBox=\"0 0 64 64\"><circle r=\"10\"/></svg>".toList)
    (by decide) rfl rfl (by decide)

/-- The UI state the `onChunk` callback (lines 518-531) touches: the
accumulated output, the mirrored raw-output display, the live-preview
extracted list, and the selected artifact index. -/
structure PreviewState where
  currentOutput : List Char
  aiRawOutput : List Char
  extractedSVGs : List (List Char)
  selectedSVGIndex : Nat
deriving DecidableEq

/-- The `onChunk` callback: ignore empty chunks; append the chunk to the
accumulated output and mirror it; re-extract, and when candidates exist
replace the preview list with the valid ones; the selected index is left
alone during generation (the comment at line 529: do not auto-select while
generating, respect the user's selection). -/
def onChunk (valid : List Char → Bool) (st : PreviewState) (chunk : List Char) : PreviewState :=
  if chunk.isEmpty then st
  else
    let out := st.currentOutput ++ chunk
    let ms := extract out
    if ms.isEmpty then
      { st with currentOutput := out, aiRawOutput := out }
    else
      { currentOutput := out, aiRawOutput := out,
        extractedSVGs := ms.filter valid,
        selectedSVGIndex := st.selectedSVGIndex }

/-- Claim C10: live-preview updates never modify the selected artifact
index — a single `onChunk` step, and hence any sequence of streamed
fragments, leaves `selectedSVGIndex` unchanged. -/
theorem onChunk_preserves_selection :
    (∀ (valid : List Char → Bool) (st : PreviewState) (chunk : List Char),
        (onChunk valid st chunk).selectedSVGIndex = st.selectedSVGIndex)
  ∧ (∀ (valid : List Char → Bool) (st : PreviewState) (chunks : List (List Char)),
        (chunks.foldl (onChunk valid) st).selectedSVGIndex = st.selectedSVGIndex) := by
  have hstep : ∀ (valid : List Char → Bool) (st : PreviewState) (chunk : List Char),
      (onChunk valid st chunk).selectedSVGIndex = st.selectedSVGIndex := by
    intro valid st chunk
    rw [onChunk]
    split
    · rfl
    · dsimp only
      split
      · rfl
      · rfl
  refine ⟨hstep, ?_⟩
  intro valid st chunks
  induction chunks generalizing st with
  | nil => rfl
  | cons c cs ih =>
      rw [List.foldl_cons, ih, hstep]

/-- The engine state of the `useWebLLM` hook: the engine handle reference,
the model it was initialized for, and a counter producing distinct handles
for successive initializations. -/
structure EngineState where
  engineRef : Option Nat
  currentModelRef : Option String
  nextHandle : Nat
deriving DecidableEq

/-- `initializeEngine` (lines 1270-1329, happy path): if an engine is live
and the current model equals the requested one, return it unchanged;
otherwise create a fresh engine and record the model. -/
def initializeEngine (st : EngineState) (modelId : String) : EngineState × Nat :=
  match st.engineRef with
  | some e =>
      if st.currentModelRef = some modelId then (st, e)
      else
        ({ engineRef := some st.nextHandle, currentModelRef := some modelId,
           nextHandle := st.nextHandle + 1 }, st.nextHandle)
  | none =>
      ({ engineRef := some st.nextHandle, currentModelRef := some modelId,
         nextHandle := st.nextHandle + 1 }, st.nextHandle)

/-- `resetEngine` (lines 1426-1431): null both references. -/
def resetEngine (st : EngineState) : EngineState :=
  { st with engineRef := none, currentModelRef := none }

/-- The model-selector state `handleModelChange` (lines 747-755) touches. -/
structure ModelSelState where
  selectedModel : String
  engine : EngineState
deriving DecidableEq

/-- `handleModelChange`: record the new model and reset the engine. -/
def handleModelChange (st : ModelSelState) (value : String) : ModelSelState :=
  { selectedModel := value, engine := resetEngine st.engine }

/-- Claim C8: initialization is skipped (state and handle unchanged) when
the previously-initialized model equals the requested one; `resetEngine`
nulls both references; after a reset the next use creates a fresh engine;
and an explicit model change also nulls both references. -/
theorem engine_reuse_reset :
    (∀ (st : EngineState) (e : Nat) (m : String),
        st.engineRef = some e → st.currentModelRef = some m →
        initializeEngine st m = (st, e))
  ∧ (∀ st : EngineState,
        (resetEngine st).engineRef = none ∧ (resetEngine st).currentModelRef = none)
  ∧ (∀ (st : EngineState) (m : String),
        (initializeEngine (resetEngine st) m).1.engineRef = some st.nextHandle
          ∧ (initializeEngine (resetEngine st) m).1.currentModelRef = some m
          ∧ (initializeEngine (resetEngine st) m).2 = st.nextHandle)
  ∧ (∀ (st : ModelSelState) (v : String),
        (handleModelChange st v).engine.engineRef = none
          ∧ (handleModelChange st v).engine.currentModelRef = none
          ∧ (handleModelChange st v).selectedModel = v) := by
  refine ⟨?_, ?_, ?_, ?_⟩
  · intro st e m he hm
    rw [initializeEngine, he]
    dsimp only
    rw [if_pos hm]
  · intro st
    exact ⟨rfl, rfl⟩
  · intro st m
    exact ⟨rfl, rfl, rfl⟩
  · intro st v
    exact ⟨rfl, rfl, rfl⟩

/-- Witness for C8: a state initialized for `"m1"` is reused unchanged for
`"m1"`. -/
theorem engine_reuse_reset_witness :
    initializeEngine ⟨some 7, some "m1", 8⟩ "m1" = (⟨some 7, some "m1", 8⟩, 7) :=
  engine_reuse_reset.1 ⟨some 7, some "m1", 8⟩ 7 "m1" rfl rfl

/-- Substring containment over character lists (JS `String.includes`). -/
def containsSub : List Char → List Char → Bool
  | [], pat => pat.isEmpty
  | c :: cs, pat => pat.isPrefixOf (c :: cs) || containsSub cs pat

/-- JS `cacheName.includes(modelId)`. -/
def includes (hay pat : String) : Bool := containsSub hay.toList pat.toList

/-- `hasModelInCache` (lines 1433-1443): delegate to the adapter, but the
`catch` clause converts any adapter error into the boolean result `false` —
the operation itself never rejects. -/
def hasModelInCache (adapterHas : String → Except String Bool) (modelId : String) :
    Except String Bool :=
  match adapterHas modelId with
  | .ok b => .ok b
  | .error _ => .ok false

/-- Sequential deletion of a list of storage entries: the first error
aborts and propagates. -/
def deleteNames (del : String → Except String Unit) : List String → Except String Unit
  | [] => .ok ()
  | n :: ns =>
      match del n with
      | .ok _ => deleteNames del ns
      | .error e => .error e

/-- `deleteModelCache` (lines 1445-1463): delegate to the adapter's
`deleteModelInCache`, then delete every Cache Storage entry whose name
contains the model id; the `catch` clause logs and rethrows, so errors
propagate. -/
def deleteModelCache (adapterDelete : String → Except String Unit)
    (cacheNames : List String) (cacheDelete : String → Except String Unit)
    (modelId : String) : Except String Unit :=
  match adapterDelete modelId with
  | .error e => .error e
  | .ok _ => deleteNames cacheDelete (cacheNames.filter (fun nm => includes nm modelId))

/-- The browser storage surface `deleteAllModelCache` touches.  The
IndexedDB deletions are fire-and-forget (`deleteDatabase` is not awaited),
so they cannot raise into the surrounding `try`. -/
structure BrowserEnv where
  cacheNames : List String
  cacheDelete : String → Except String Unit
  localStorageClear : Except String Unit
  sessionStorageClear : Except String Unit
  swRegistrations : List String
  swUnregister : String → Except String Unit

/-- `deleteAllModelCache` (lines 1465-1504): clear every Cache Storage
entry, then LocalStorage, then SessionStorage, then unregister service
workers; the `catch` logs and rethrows, so the first storage error
propagates. -/
def deleteAllModelCache (env : BrowserEnv) : Except String Unit :=
  match deleteNames env.cacheDelete env.cacheNames with
  | .error e => .error e
  | .ok _ =>
      match env.localStorageClear with
      | .error e => .error e
      | .ok _ =>
          match env.sessionStorageClear with
          | .error e => .error e
          | .ok _ => deleteNames env.swUnregister env.swRegistrations

/-- Counterexample to claim C9: `hasModelInCache` does not surface adapter
errors — with an adapter that raises, the call still resolves with the
boolean result `false` instead of propagating the error. -/
theorem hasModelInCache_swallows_error :
    hasModelInCache (fun _ => Except.error "adapter failure") "m1" = Except.ok false := rfl

/-- Claim C9 as amended: errors from `deleteModelCache` (from the adapter
or from a Cache Storage deletion) and from `deleteAllModelCache` propagate
to the caller of that operation, but `hasModelInCache` catches adapter
errors and returns `false` instead of propagating them. -/
theorem cache_error_propagation :
    (∀ (a : String → Except String Bool) (m e : String),
        a m = Except.error e → hasModelInCache a m = Except.ok false)
  ∧ (∀ (ad : String → Except String Unit) (ns : List String)
        (cd : String → Except String Unit) (m e : String),
        ad m = Except.error e → deleteModelCache ad ns cd m = Except.error e)
  ∧ (∀ (ad : String → Except String Unit) (ns : List String)
        (cd : String → Except String Unit) (m e : String),
        ad m = Except.ok () →
        deleteNames cd (ns.filter (fun nm => includes nm m)) = Except.error e →
        deleteModelCache ad ns cd m = Except.error e)
  ∧ (∀ (cd : String → Except String Unit) (n : String) (ns : List String) (e : String),
        cd n = Except.error e → deleteNames cd (n :: ns) = Except.error e)
  ∧ (∀ (env : BrowserEnv) (e : String),
        deleteNames env.cacheDelete env.cacheNames = Except.ok () →
        env.localStorageClear = Except.error e →
        deleteAllModelCache env = Except.error e) := by
  refine ⟨?_, ?_, ?_, ?_, ?_⟩
  · intro a m e h
    rw [hasModelInCache, h]
  · intro ad ns cd m e h
    rw [deleteModelCache, h]
  · intro ad ns cd m e h1 h2
    rw [deleteModelCache, h1, h2]
  · intro cd n ns e h
    rw [deleteNames, h]
  · intro env e h1 h2
    rw [deleteAllModelCache, h1, h2]

/-- Witness for the amended C9 at concrete inputs. -/
theorem cache_error_propagation_witness :
    hasModelInCache (fun _ => Except.error "boom") "m2" = Except.ok false
  ∧ deleteModelCache (fun _ => Except.error "boom") ["webllm/model-m2"]
      (fun _ => Except.ok ()) "m2" = Except.error "boom"
  ∧ deleteModelCache (fun _ => Except.ok ()) ["webllm/model-m2"]
      (fun _ => Except.error "cache boom") "m2" = Except.error "cache boom"
  ∧ deleteNames (fun _ => Except.error "cache boom") ["a"] = Except.error "cache boom"
  ∧ deleteAllModelCache
      ⟨[], fun _ => Except.ok (), Except.error "ls boom", Except.ok (), [], fun _ => Except.ok ()⟩
      = Except.error "ls boom" :=
  ⟨cache_error_propagation.1 (fun _ => Except.error "boom") "m2" "boom" rfl,
   cache_error_propagation.2.1 (fun _ => Except.error "boom") ["webllm/model-m2"]
     (fun _ => Except.ok ()) "m2" "boom" rfl,
   cache_error_propagation.2.2.1 (fun _ => Except.ok ()) ["webllm/model-m2"]
     (fun _ => Except.error "cache boom") "m2" "cache boom" rfl rfl,
   cache_error_propagation.2.2.2.1 (fun _ => Except.error "cache boom") "a" [] "cache boom" rfl,
   cache_error_propagation.2.2.2.2
     ⟨[], fun _ => Except.ok (), Except.error "ls boom", Except.ok (), [], fun _ => Except.ok ()⟩
     "ls boom" rfl rfl⟩

end WebllmSvg
